import Mathlib

/-!
Shallow embedding of the cppclasscreator VS Code extension.

Text is modelled as lists of characters (`Str`).  The JavaScript string
operations the source uses (`trim`, `split`, template literals, truthiness)
are modelled by explicit recursive functions below.  Interactive prompt
results are `Option Str` (`none` means the user dismissed the prompt), and
the host filesystem is a partial map from paths to file contents.  The
namespace `Ext` embeds `src/src/extension.ts`; the namespace `Rev0` embeds
the relative-path revision of the command (`src/unnamed/part_000`).
-/

abbrev Str := List Char

/-- Whitespace test used by the model of JavaScript `trim`. -/
def isWS (c : Char) : Bool := c = ' ' || c = '\t' || c = '\n' || c = '\r'

/-- Model of JavaScript `s.trim()`: drop whitespace from both ends. -/
def jsTrim (s : Str) : Str := ((s.dropWhile isWS).reverse.dropWhile isWS).reverse

/-- Model of JavaScript `s.split("::")`: leftmost-match splitting on the
two-character separator. -/
def splitColons : Str → List Str
  | [] => [[]]
  | [c] => [[c]]
  | c1 :: c2 :: rest =>
    if c1 = ':' ∧ c2 = ':' then [] :: splitColons rest
    else
      match splitColons (c2 :: rest) with
      | [] => [[c1]]
      | h :: t => (c1 :: h) :: t

/-- Model of JavaScript `s.split('/')`. -/
def splitSlash : Str → List Str
  | [] => [[]]
  | c :: rest =>
    if c = '/' then [] :: splitSlash rest
    else
      match splitSlash rest with
      | [] => [[c]]
      | h :: t => (c :: h) :: t

/-- JavaScript truthiness of an input-box result: `none` (dismissed) and the
empty string are falsy; a truthy result carries its non-empty string. -/
def jsVal : Option Str → Option Str
  | none => none
  | some s => if s.length != 0 then some s else none

/-- Model of `vscode.Uri.joinPath(base, ...segments)`. -/
def uriJoin (base : Str) (segs : List Str) : Str :=
  segs.foldl (fun acc s => acc ++ "/".data ++ s) base

/-- Observable effects of a command invocation: user-visible messages,
issued file-write calls, and completed writes. -/
inductive Event
  | errorMsg (m : Str)
  | infoMsg (m : Str)
  | writeAttempt (path : Str)
  | fileWritten (path : Str) (content : Str)
  deriving DecidableEq

/-- Result of running (part of) the command: the event trace and the
filesystem afterwards. -/
structure CmdResult where
  events : List Event
  fs' : Str → Option Str

/-- Number of occurrences (start positions) of `pat` inside `s`. -/
def countOcc (pat : Str) : Str → Nat
  | [] => 0
  | c :: s => (if pat <+: (c :: s) then 1 else 0) + countOcc pat s

namespace Ext

/-- Outcome of `getOrCreateCopyrightNotice`: the returned notice or thrown
error, the emitted events, and the filesystem afterwards. -/
structure NoticeResult where
  result : Except Str Str
  events : List Event
  fs' : Str → Option Str

/-- The fixed notice template of `getOrCreateCopyrightNotice`
(src/src/extension.ts lines 104-113). -/
def copyrightTemplate (author projectName : Str) : Str :=
  "/*\n * Copyright (c) 2025 ".data ++ author ++
  "\n * All rights reserved.\n *\n * This file is part of ".data ++ projectName ++
  ".\n * Unauthorized copying of this file, via any medium is strictly prohibited.\n * Proprietary and confidential.\n */\n".data

/-- Embedding of `getOrCreateCopyrightNotice` (src/src/extension.ts lines
78-117).  `fs` maps paths to contents; a hit of the stat/read is a `some`
entry.  The prompts for author and project name are `Option Str`. -/
def getOrCreateCopyrightNotice (fs : Str → Option Str) (workspaceFolder : Str)
    (author projectName : Option Str) : NoticeResult :=
  let copyrightUri := workspaceFolder ++ "/COPYRIGHT.txt".data
  match fs copyrightUri with
  | some data => ⟨.ok data, [], fs⟩
  | none =>
    match jsVal author with
    | none => ⟨.error "Author name is required.".data,
               [.errorMsg "Author name is required.".data], fs⟩
    | some a =>
      match jsVal projectName with
      | none => ⟨.error "Project name is required.".data,
                 [.errorMsg "Project name is required.".data], fs⟩
      | some pn =>
        let notice := copyrightTemplate a pn
        ⟨.ok notice,
         [.writeAttempt copyrightUri, .fileWritten copyrightUri notice],
         fun q => if q = copyrightUri then some notice else fs q⟩

/-- Embedding of the namespace-parsing block (src/src/extension.ts lines
148-156): split the input on `::`, trim each part, drop empty parts.  A
dismissed or all-whitespace input yields no parts. -/
def nsParts (nsInput : Option Str) : List Str :=
  match nsInput with
  | none => []
  | some s =>
    if (jsTrim s).length != 0 then
      ((splitColons s).map jsTrim).filter (fun t => t.length != 0)
    else []

/-- The `openNamespaces` string of src/src/extension.ts line 153. -/
def openNamespaces (nsInput : Option Str) : Str :=
  if (nsParts nsInput).length != 0 then
    List.intercalate "\n".data
      ((nsParts nsInput).map (fun ns => "namespace ".data ++ ns ++ " \x7b".data))
  else []

/-- The `closeNamespaces` string of src/src/extension.ts line 154. -/
def closeNamespaces (nsInput : Option Str) : Str :=
  if (nsParts nsInput).length != 0 then
    List.intercalate "\n".data ((nsParts nsInput).map (fun _ => "\x7d".data))
  else []

/-- Test of the regex `^include[\/\\]` (src/src/extension.ts line 192). -/
def startsWithIncludeSep : Str → Bool
  | 'i' :: 'n' :: 'c' :: 'l' :: 'u' :: 'd' :: 'e' :: c :: _ => c = '/' || c = '\\'
  | _ => false

/-- Replacement of the leading `include/` (or `include\`) by the empty
string (src/src/extension.ts line 193). -/
def stripIncludeSep (s : Str) : Str :=
  match s with
  | 'i' :: 'n' :: 'c' :: 'l' :: 'u' :: 'd' :: 'e' :: c :: rest =>
    if c = '/' || c = '\\' then rest else s
  | _ => s

/-- Embedding of the split-placement include directive (src/src/extension.ts
lines 190-197). -/
def includeDirective (headerSubfolder className : Str) : Str :=
  let directiveFolder :=
    if startsWithIncludeSep headerSubfolder then stripIncludeSep headerSubfolder
    else headerSubfolder
  if directiveFolder.length != 0 then
    "#include \"".data ++ directiveFolder ++ "/".data ++ className ++ ".hpp\"".data
  else
    "#include \"".data ++ className ++ ".hpp\"".data

/-- Embedding of the header text builder (src/src/extension.ts lines
199-210 and, identically, lines 257-267). -/
def headerContent (copyrightNotice openNs closeNs className : Str) : Str :=
  let h1 := copyrightNotice ++ "\n\n".data
  let h2 := h1 ++ "#pragma once\n\n".data
  let h3 := if openNs.length != 0 then h2 ++ openNs ++ "\n\n".data else h2
  let h4 := h3 ++ "class ".data ++ className ++ " \x7b\n".data
  let h5 := h4 ++ "public:\n    ".data ++ className ++ "();\n    ~".data ++
            className ++ "();\n\n".data
  let h6 := h5 ++ "private:\n    // Members...\n\x7d;\n\n".data
  if closeNs.length != 0 then h6 ++ closeNs ++ "\n".data else h6

/-- Embedding of the source text builder (src/src/extension.ts lines
212-222 and, identically, lines 269-278). -/
def sourceContent (copyrightNotice openNs closeNs className includeDir : Str) : Str :=
  let s1 := copyrightNotice ++ "\n\n".data
  let s2 := s1 ++ includeDir ++ "\n\n".data
  let s3 := if openNs.length != 0 then s2 ++ openNs ++ "\n\n".data else s2
  let s4 := s3 ++ className ++ "::".data ++ className ++
            "() \x7b\n    // Constructor implementation\n\x7d\n\n".data
  let s5 := s4 ++ className ++ "::~".data ++ className ++
            "() \x7b\n    // Destructor implementation\n\x7d\n\n".data
  if closeNs.length != 0 then s5 ++ closeNs ++ "\n".data else s5

/-- Embedding of the final try-block writing both files (src/src/extension.ts
lines 236-244 and 283-291).  `wfail` says which write calls throw.  The
second write is only reached when the first one did not throw. -/
def writePhase (wfail : Str → Bool) (fs : Str → Option Str)
    (hUri hText sUri sText okMsg : Str) : CmdResult :=
  if wfail hUri then
    ⟨[.writeAttempt hUri, .errorMsg "Error creating files: ".data], fs⟩
  else if wfail sUri then
    ⟨[.writeAttempt hUri, .fileWritten hUri hText, .writeAttempt sUri,
      .errorMsg "Error creating files: ".data],
     fun q => if q = hUri then some hText else fs q⟩
  else
    ⟨[.writeAttempt hUri, .fileWritten hUri hText, .writeAttempt sUri,
      .fileWritten sUri sText, .infoMsg okMsg],
     fun q => if q = sUri then some sText else if q = hUri then some hText else fs q⟩

/-- The quick-pick answer of the placement question. -/
inductive Placement
  | sameFolder
  | separateFolders
  deriving DecidableEq

/-- The full set of interactive answers one invocation can consume.
`baseFolder` is the result of `selectBaseFolder` (`none` covers both a
dismissed picker and the no-workspace error path, which return without
reaching any later stage). -/
structure Prompts where
  baseFolder : Option Str
  author : Option Str
  projectName : Option Str
  className : Option Str
  nsInput : Option Str
  placement : Option Placement
  headerFolderInput : Option Str
  sourceFolderInput : Option Str
  folderInput : Option Str

/-- Embedding of the `extension.createClassFiles` command handler
(src/src/extension.ts lines 120-293).  The auto-suggested default of the
source-subfolder input box (lines 174-178) only changes the prompt's
pre-filled value, so it is absorbed into the recorded answer
`sourceFolderInput`. -/
def createClassFiles (fs : Str → Option Str) (wfail : Str → Bool) (p : Prompts) :
    CmdResult :=
  match p.baseFolder with
  | none => ⟨[], fs⟩
  | some base =>
    let cr := getOrCreateCopyrightNotice fs base p.author p.projectName
    match cr.result with
    | .error msg => ⟨cr.events ++ [.errorMsg msg], cr.fs'⟩
    | .ok copyrightNotice =>
      match jsVal p.className with
      | none => ⟨cr.events ++ [.errorMsg "Class name is required.".data], cr.fs'⟩
      | some className =>
        let openNs := openNamespaces p.nsInput
        let closeNs := closeNamespaces p.nsInput
        match p.placement with
        | none => ⟨cr.events, cr.fs'⟩
        | some .separateFolders =>
          match jsVal p.headerFolderInput with
          | none => ⟨cr.events, cr.fs'⟩
          | some hfi =>
            let headerSubfolder := jsTrim hfi
            match jsVal p.sourceFolderInput with
            | none => ⟨cr.events, cr.fs'⟩
            | some sfi =>
              let sourceSubfolder := jsTrim sfi
              let includeDir := includeDirective headerSubfolder className
              let hText := headerContent copyrightNotice openNs closeNs className
              let sText := sourceContent copyrightNotice openNs closeNs className includeDir
              let headerUri := uriJoin base (splitSlash headerSubfolder ++ [className ++ ".hpp".data])
              let sourceUri := uriJoin base (splitSlash sourceSubfolder ++ [className ++ ".cpp".data])
              let okMsg := "Created ".data ++ className ++ ".hpp in \"".data ++
                           headerSubfolder ++ "\" and ".data ++ className ++
                           ".cpp in \"".data ++ sourceSubfolder ++ "\"".data
              let w := writePhase wfail cr.fs' headerUri hText sourceUri sText okMsg
              ⟨cr.events ++ w.events, w.fs'⟩
        | some .sameFolder =>
          let targetSubfolder := match jsVal p.folderInput with
                                 | none => []
                                 | some s => jsTrim s
          let targetUri := if targetSubfolder.length != 0 then
                             uriJoin base (splitSlash targetSubfolder)
                           else base
          let includeDir := "#include \"".data ++ className ++ ".hpp\"".data
          let hText := headerContent copyrightNotice openNs closeNs className
          let sText := sourceContent copyrightNotice openNs closeNs className includeDir
          let headerUri := uriJoin targetUri [className ++ ".hpp".data]
          let sourceUri := uriJoin targetUri [className ++ ".cpp".data]
          let okMsg := "Created ".data ++ className ++ ".hpp and ".data ++ className ++
                       ".cpp in \"".data ++
                       (if targetSubfolder.length != 0 then targetSubfolder
                        else "base folder".data) ++ "\"".data
          let w := writePhase wfail cr.fs' headerUri hText sourceUri sText okMsg
          ⟨cr.events ++ w.events, w.fs'⟩

end Ext

namespace Rev0

/-- Modelled from the spec: the relative-path revision calls Node's external
`path.join` / `path.relative` library (src/unnamed/part_000 lines 114-120).
Paths are modelled at the segment level; one resolution step skips `.` and
empty segments and lets `..` pop the last segment (clamped at the root,
matching resolution of absolute paths). -/
def normStep (acc : List Str) (seg : Str) : List Str :=
  if seg = ".".data then acc
  else if seg = "..".data then acc.dropLast
  else if seg = [] then acc
  else acc ++ [seg]

/-- Segment-level model of Node path resolution (left fold of `normStep`). -/
def resolveSegs (segs : List Str) : List Str := segs.foldl normStep []

/-- Drop the common prefix of two segment lists, returning both remainders. -/
def dropCommon : List Str → List Str → List Str × List Str
  | a :: as, b :: bs => if a = b then dropCommon as bs else (a :: as, b :: bs)
  | as, bs => (as, bs)

/-- Segment-level model of Node `path.relative(fromP, toP)`: resolve both,
drop the common prefix, walk up once per remaining from-segment, then walk
down the remaining to-segments. -/
def pathRelative (fromSegs toSegs : List Str) : List Str :=
  let rest := dropCommon (resolveSegs fromSegs) (resolveSegs toSegs)
  rest.1.map (fun _ => "..".data) ++ rest.2

/-- Embedding of the split-placement include directive of the relative-path
revision (src/unnamed/part_000 lines 113-121): join the workspace path with
each subfolder, take the relative path from the source folder to the header
folder, join it with forward slashes, and build the directive. -/
def includeDirective (ws headerFolder sourceFolder : List Str) (className : Str) : Str :=
  let relativeHeaderPath :=
    List.intercalate "/".data (pathRelative (ws ++ sourceFolder) (ws ++ headerFolder))
  if relativeHeaderPath.length != 0 then
    "#include \"".data ++ relativeHeaderPath ++ "/".data ++ className ++ ".hpp\"".data
  else
    "#include \"".data ++ className ++ ".hpp\"".data

end Rev0

/-- The constant template text between the copyright block and the class
name in a header rendered with no namespace blocks. -/
def hdrK1 : Str := "\n\n".data ++ "#pragma once\n\n".data ++ "class ".data

/-- The constant template text between the class name and the constructor
name in such a header. -/
def hdrK2 : Str := " \x7b\n".data ++ "public:\n    ".data

/-- The constant template text between the constructor name and the
destructor name. -/
def hdrK3 : Str := "();\n    ~".data

/-- The constant template text after the destructor name. -/
def hdrK4 : Str := "();\n\n".data ++ "private:\n    // Members...\n\x7d;\n\n".data

/-- The part of a rendered source file that follows the two fixed blank-line
separators after the include directive. -/
def sourceTail (openNs closeNs className : Str) : Str :=
  (if openNs.length != 0 then openNs ++ "\n\n".data else []) ++
  className ++ "::".data ++ className ++
  "() \x7b\n    // Constructor implementation\n\x7d\n\n".data ++
  className ++ "::~".data ++ className ++
  "() \x7b\n    // Destructor implementation\n\x7d\n\n".data ++
  (if closeNs.length != 0 then closeNs ++ "\n".data else [])

/-- Checks that every write call in a trace targets the COPYRIGHT.txt file
of the given base folder, i.e. that no generated header/source write was
issued. -/
def onlyCopyrightWrites (base : Str) (evs : List Event) : Bool :=
  evs.all (fun e => match e with
    | .writeAttempt pth => pth == base ++ "/COPYRIGHT.txt".data
    | _ => true)

lemma take_append_left (A B : Str) (n : Nat) (h : n ≤ A.length) :
    (A ++ B).take n = A.take n := by
  rw [List.take_append_eq_append_take, Nat.sub_eq_zero_of_le h, List.take_zero,
    List.append_nil]

lemma prefix_append_of_length_le {p A B : Str} (h : p <+: A ++ B)
    (hl : p.length ≤ A.length) : p <+: A := by
  have h1 : (A ++ B).take p.length = A.take p.length := take_append_left A B _ hl
  rw [List.prefix_iff_eq_take] at h
  exact List.prefix_iff_eq_take.mpr (h.trans h1)

lemma span_take {p A B : Str} (h : p <+: A ++ B) (hl : A.length < p.length) :
    p.take A.length = A := by
  obtain ⟨t, ht⟩ := h
  have h1 : (p ++ t).take A.length = p.take A.length :=
    take_append_left p t _ (le_of_lt hl)
  rw [ht] at h1
  rw [← h1, take_append_left A B _ (le_refl _), List.take_length]

lemma span_drop {p A B : Str} (h : p <+: A ++ B) (hl : A.length < p.length) :
    p.drop A.length <+: B := by
  obtain ⟨t, ht⟩ := h
  refine ⟨t, ?_⟩
  have h1 : (p ++ t).drop A.length = p.drop A.length ++ t := by
    rw [List.drop_append_eq_append_drop, Nat.sub_eq_zero_of_le (le_of_lt hl),
      List.drop_zero]
  rw [ht] at h1
  rw [← h1, List.drop_append_eq_append_drop, List.drop_length, Nat.sub_self,
    List.drop_zero, List.nil_append]

lemma countOcc_append_right {p K : Str} (xs : Str) {ys : Str} (hK : K <+: ys)
    (hlen : p.length ≤ K.length + 1)
    (hspan : ∀ i, i < p.length → i = 0 ∨ ¬ (p.drop i <+: K)) :
    countOcc p (xs ++ ys) = countOcc p xs + countOcc p ys := by
  induction xs with
  | nil => simp [countOcc]
  | cons c s ih =>
    have key : (p <+: (c :: s) ++ ys) ↔ (p <+: (c :: s)) := by
      constructor
      · intro h
        by_cases hl : p.length ≤ (c :: s).length
        · exact prefix_append_of_length_le h hl
        · exfalso
          push_neg at hl
          have hd : p.drop (c :: s).length <+: ys := span_drop h hl
          have hlen2 : (p.drop (c :: s).length).length ≤ K.length := by
            rw [List.length_drop]
            simp only [List.length_cons] at hl ⊢
            omega
          have hdK : p.drop (c :: s).length <+: K :=
            List.prefix_of_prefix_length_le hd hK hlen2
          rcases hspan (c :: s).length hl with h0 | hn
          · simp at h0
          · exact hn hdK
      · intro h
        exact h.trans (List.prefix_append _ _)
    by_cases hp : p <+: (c :: s)
    · have hp2 : p <+: (c :: s) ++ ys := key.mpr hp
      rw [List.cons_append] at hp2 ⊢
      simp only [countOcc, if_pos hp, if_pos hp2, ih]
      omega
    · have hp2 : ¬ (p <+: (c :: s) ++ ys) := fun h => hp (key.mp h)
      rw [List.cons_append] at hp2 ⊢
      simp only [countOcc, if_neg hp, if_neg hp2, ih]
      omega

lemma countOcc_append_left {p : Str} (xs ys : Str)
    (hspan : ∀ i, i < p.length → i = 0 ∨ ¬ (p.take i <:+ xs)) :
    countOcc p (xs ++ ys) = countOcc p xs + countOcc p ys := by
  induction xs with
  | nil => simp [countOcc]
  | cons c s ih =>
    have key : (p <+: (c :: s) ++ ys) ↔ (p <+: (c :: s)) := by
      constructor
      · intro h
        by_cases hl : p.length ≤ (c :: s).length
        · exact prefix_append_of_length_le h hl
        · exfalso
          push_neg at hl
          have ht : p.take (c :: s).length = c :: s := span_take h hl
          rcases hspan (c :: s).length hl with h0 | hn
          · simp at h0
          · exact hn (by rw [ht])
      · intro h
        exact h.trans (List.prefix_append _ _)
    have hspan' : ∀ i, i < p.length → i = 0 ∨ ¬ (p.take i <:+ s) := by
      intro i hi
      rcases hspan i hi with h0 | hn
      · exact Or.inl h0
      · refine Or.inr (fun hs => hn ?_)
        obtain ⟨u, hu⟩ := hs
        exact ⟨c :: u, by rw [List.cons_append, hu]⟩
    by_cases hp : p <+: (c :: s)
    · have hp2 : p <+: (c :: s) ++ ys := key.mpr hp
      rw [List.cons_append] at hp2 ⊢
      simp only [countOcc, if_pos hp, if_pos hp2, ih hspan']
      omega
    · have hp2 : ¬ (p <+: (c :: s) ++ ys) := fun h => hp (key.mp h)
      rw [List.cons_append] at hp2 ⊢
      simp only [countOcc, if_neg hp, if_neg hp2, ih hspan']
      omega

lemma headerContent_empty_ns (cp cn : Str) :
    Ext.headerContent cp [] [] cn =
      cp ++ (hdrK1 ++ (cn ++ (hdrK2 ++ (cn ++ (hdrK3 ++ (cn ++ hdrK4)))))) := by
  simp [Ext.headerContent, hdrK1, hdrK2, hdrK3, hdrK4, List.append_assoc]

lemma countOcc_headerContent (p cp cn : Str)
    (w1 : p.length ≤ hdrK1.length + 1)
    (s1 : ∀ i, i < p.length → i = 0 ∨ ¬ (p.drop i <+: hdrK1))
    (t1 : ∀ i, i < p.length → i = 0 ∨ ¬ (p.take i <:+ hdrK1))
    (w2 : p.length ≤ hdrK2.length + 1)
    (s2 : ∀ i, i < p.length → i = 0 ∨ ¬ (p.drop i <+: hdrK2))
    (t2 : ∀ i, i < p.length → i = 0 ∨ ¬ (p.take i <:+ hdrK2))
    (w3 : p.length ≤ hdrK3.length + 1)
    (s3 : ∀ i, i < p.length → i = 0 ∨ ¬ (p.drop i <+: hdrK3))
    (t3 : ∀ i, i < p.length → i = 0 ∨ ¬ (p.take i <:+ hdrK3))
    (w4 : p.length ≤ hdrK4.length + 1)
    (s4 : ∀ i, i < p.length → i = 0 ∨ ¬ (p.drop i <+: hdrK4)) :
    countOcc p (Ext.headerContent cp [] [] cn) =
      countOcc p cp + 3 * countOcc p cn +
      (countOcc p hdrK1 + countOcc p hdrK2 + countOcc p hdrK3 + countOcc p hdrK4) := by
  have e1 : countOcc p (cn ++ hdrK4) = countOcc p cn + countOcc p hdrK4 :=
    countOcc_append_right cn List.prefix_rfl w4 s4
  have e2 : countOcc p (hdrK3 ++ (cn ++ hdrK4)) =
      countOcc p hdrK3 + countOcc p (cn ++ hdrK4) :=
    countOcc_append_left hdrK3 (cn ++ hdrK4) t3
  have e3 : countOcc p (cn ++ (hdrK3 ++ (cn ++ hdrK4))) =
      countOcc p cn + countOcc p (hdrK3 ++ (cn ++ hdrK4)) :=
    countOcc_append_right cn (List.prefix_append hdrK3 _) w3 s3
  have e4 : countOcc p (hdrK2 ++ (cn ++ (hdrK3 ++ (cn ++ hdrK4)))) =
      countOcc p hdrK2 + countOcc p (cn ++ (hdrK3 ++ (cn ++ hdrK4))) :=
    countOcc_append_left hdrK2 _ t2
  have e5 : countOcc p (cn ++ (hdrK2 ++ (cn ++ (hdrK3 ++ (cn ++ hdrK4))))) =
      countOcc p cn + countOcc p (hdrK2 ++ (cn ++ (hdrK3 ++ (cn ++ hdrK4)))) :=
    countOcc_append_right cn (List.prefix_append hdrK2 _) w2 s2
  have e6 : countOcc p (hdrK1 ++ (cn ++ (hdrK2 ++ (cn ++ (hdrK3 ++ (cn ++ hdrK4)))))) =
      countOcc p hdrK1 + countOcc p (cn ++ (hdrK2 ++ (cn ++ (hdrK3 ++ (cn ++ hdrK4))))) :=
    countOcc_append_left hdrK1 _ t1
  have e7 : countOcc p (cp ++ (hdrK1 ++ (cn ++ (hdrK2 ++ (cn ++ (hdrK3 ++ (cn ++ hdrK4))))))) =
      countOcc p cp + countOcc p (hdrK1 ++ (cn ++ (hdrK2 ++ (cn ++ (hdrK3 ++ (cn ++ hdrK4)))))) :=
    countOcc_append_right cp (List.prefix_append hdrK1 _) w1 s1
  rw [headerContent_empty_ns, e7, e6, e5, e4, e3, e2, e1]
  omega

lemma splitColons_sep (r : Str) : ∀ (a : Str), ':' ∉ a →
    splitColons (a ++ ':' :: ':' :: r) = a :: splitColons r := by
  intro a
  induction a with
  | nil =>
    intro _
    simp [splitColons]
  | cons c a' ih =>
    intro h
    have hc : c ≠ ':' := fun hc => h (hc ▸ List.mem_cons_self c a')
    have h' : ':' ∉ a' := fun hm => h (List.mem_cons_of_mem c hm)
    cases a' with
    | nil =>
      rw [List.nil_append] at ih
      simp only [List.cons_append, List.nil_append]
      simp [splitColons, hc]
    | cons c2 a'' =>
      have hih := ih h'
      rw [List.cons_append] at hih
      rw [List.cons_append, List.cons_append]
      simp only [splitColons, hih]
      simp [hc]

lemma splitColons_single : ∀ (a : Str), ':' ∉ a → splitColons a = [a] := by
  intro a
  induction a with
  | nil => intro _; rfl
  | cons c a' ih =>
    intro h
    have hc : c ≠ ':' := fun hc => h (hc ▸ List.mem_cons_self c a')
    have h' : ':' ∉ a' := fun hm => h (List.mem_cons_of_mem c hm)
    cases a' with
    | nil => rfl
    | cons c2 a'' =>
      have hih := ih h'
      simp only [splitColons, hih]
      simp [hc]

lemma mem_dropWhile_of_neg {c : Char} {p : Char → Bool} (hp : p c = false) :
    ∀ (s : Str), c ∈ s → c ∈ s.dropWhile p := by
  intro s
  induction s with
  | nil => intro hm; cases hm
  | cons x xs ih =>
    intro hm
    rw [List.dropWhile_cons]
    by_cases hx : p x = true
    · rw [if_pos hx]
      rcases List.mem_cons.mp hm with h1 | h2
      · subst h1; rw [hp] at hx; cases hx
      · exact ih h2
    · rw [if_neg hx]
      exact hm

lemma mem_jsTrim {c : Char} {s : Str} (hm : c ∈ s) (hw : isWS c = false) :
    c ∈ jsTrim s := by
  unfold jsTrim
  rw [List.mem_reverse]
  apply mem_dropWhile_of_neg hw
  rw [List.mem_reverse]
  exact mem_dropWhile_of_neg hw s hm

lemma jsTrim_length_ne_zero_of_colon {s : Str} (hm : ':' ∈ s) :
    ((jsTrim s).length != 0) = true := by
  have hmem : ':' ∈ jsTrim s := mem_jsTrim hm (by decide)
  have hne : jsTrim s ≠ [] := List.ne_nil_of_mem hmem
  simpa [List.length_eq_zero] using hne

lemma foldl_normStep_eq : ∀ (l : List Str), "..".data ∉ l →
    ∀ (acc : List Str),
      List.foldl Rev0.normStep acc l = acc ++ List.foldl Rev0.normStep [] l := by
  intro l
  induction l with
  | nil => intro _ acc; simp
  | cons s t ih =>
    intro h acc
    have hs : s ≠ "..".data := fun he => h (he ▸ List.mem_cons_self s t)
    have h' : "..".data ∉ t := fun hm => h (List.mem_cons_of_mem s hm)
    simp only [List.foldl_cons]
    rw [ih h' (Rev0.normStep acc s), ih h' (Rev0.normStep [] s)]
    have hstep : Rev0.normStep acc s = acc ++ Rev0.normStep [] s := by
      unfold Rev0.normStep
      by_cases h1 : s = ".".data
      · simp [h1]
      · rw [if_neg h1, if_neg hs, if_neg h1, if_neg hs]
        by_cases h2 : s = []
        · simp [h2]
        · rw [if_neg h2, if_neg h2]
          simp
    rw [hstep, List.append_assoc]

lemma resolveSegs_append (r l : List Str) (h : "..".data ∉ l) :
    Rev0.resolveSegs (r ++ l) = Rev0.resolveSegs r ++ Rev0.resolveSegs l := by
  unfold Rev0.resolveSegs
  rw [List.foldl_append]
  exact foldl_normStep_eq l h _

lemma dropCommon_append : ∀ (r a b : List Str),
    Rev0.dropCommon (r ++ a) (r ++ b) = Rev0.dropCommon a b := by
  intro r
  induction r with
  | nil => intro a b; simp
  | cons x r' ih =>
    intro a b
    simp only [List.cons_append]
    have : Rev0.dropCommon (x :: (r' ++ a)) (x :: (r' ++ b)) =
        Rev0.dropCommon (r' ++ a) (r' ++ b) := by
      simp [Rev0.dropCommon]
    rw [this]
    exact ih a b

lemma rev0_directive_root_free (ws1 ws2 hf sf : List Str) (cn : Str)
    (hh : "..".data ∉ hf) (hs : "..".data ∉ sf) :
    Rev0.includeDirective ws1 hf sf cn = Rev0.includeDirective ws2 hf sf cn := by
  have key : ∀ ws : List Str,
      Rev0.pathRelative (ws ++ sf) (ws ++ hf) = Rev0.pathRelative sf hf := by
    intro ws
    unfold Rev0.pathRelative
    rw [resolveSegs_append ws sf hs, resolveSegs_append ws hf hh, dropCommon_append]
  unfold Rev0.includeDirective
  rw [key ws1, key ws2]

lemma sourceContent_shape (cp o cl cn d : Str) :
    Ext.sourceContent cp o cl cn d =
      cp ++ "\n\n".data ++ d ++ "\n\n".data ++ sourceTail o cl cn := by
  unfold Ext.sourceContent sourceTail
  split_ifs with h1 h2 h2 <;> simp [h1, List.append_assoc]

/-- C1: for split placement with headerFolder `include`, sourceFolder `src`
and class name `Foo`, the relative-path revision embeds
`#include "../include/Foo.hpp"` in the source file (for every workspace
root), while the prefix-stripping revision embeds
`#include "include/Foo.hpp"`, because its strip applies only when `include`
is followed by a path separator. -/
theorem c1_include_directive_amended :
    (∀ ws : List Str,
      Rev0.includeDirective ws ["include".data] ["src".data] "Foo".data =
        "#include \"../include/Foo.hpp\"".data) ∧
    Ext.includeDirective "include".data "Foo".data =
      "#include \"include/Foo.hpp\"".data := by
  constructor
  · intro ws
    rw [rev0_directive_root_free ws [] ["include".data] ["src".data] "Foo".data
      (by decide) (by decide)]
    decide
  · decide

/-- C1 counterexample: at headerFolder `include`, sourceFolder `src`,
className `Foo`, the directive of the prefix-stripping revision is neither
`#include "Foo.hpp"` nor `#include "../include/Foo.hpp"`, the only two
values the claim allows. -/
theorem c1_counterexample :
    Ext.includeDirective "include".data "Foo".data ≠ "#include \"Foo.hpp\"".data ∧
    Ext.includeDirective "include".data "Foo".data ≠
      "#include \"../include/Foo.hpp\"".data := by
  decide

/-- C2 (amended): the two generated-file writes sit in one try block, in
order header then source.  If the header write throws, the source write is
never attempted and a single error is shown; if the header write succeeds
and the source write throws, the header file remains written. -/
theorem c2_write_sequence_amended :
    ∀ (wfail : Str → Bool) (fs : Str → Option Str) (hUri hText sUri sText okMsg : Str),
    (wfail hUri = true →
      (Ext.writePhase wfail fs hUri hText sUri sText okMsg).events =
        [.writeAttempt hUri, .errorMsg "Error creating files: ".data] ∧
      (Ext.writePhase wfail fs hUri hText sUri sText okMsg).fs' = fs) ∧
    (wfail hUri = false → wfail sUri = true →
      (Ext.writePhase wfail fs hUri hText sUri sText okMsg).events =
        [.writeAttempt hUri, .fileWritten hUri hText, .writeAttempt sUri,
         .errorMsg "Error creating files: ".data]) := by
  intro wfail fs hUri hText sUri sText okMsg
  constructor
  · intro h
    unfold Ext.writePhase
    rw [if_pos h]
    exact ⟨rfl, rfl⟩
  · intro h1 h2
    unfold Ext.writePhase
    rw [if_neg (by simp [h1]), if_pos h2]

theorem c2_write_sequence_witness :
    (Ext.writePhase (fun _ => true) (fun _ => none)
      "h".data "H".data "s".data "S".data "ok".data).events =
      [.writeAttempt "h".data, .errorMsg "Error creating files: ".data] :=
  ((c2_write_sequence_amended (fun _ => true) (fun _ => none)
    "h".data "H".data "s".data "S".data "ok".data).1 rfl).1

/-- C2 counterexample: with a failing header write, the source write is
never attempted, refuting the claim that a failure of the first write never
skips the second write. -/
theorem c2_counterexample :
    (fun pth => decide (pth = "h.hpp".data) : Str → Bool) "h.hpp".data = true ∧
    Event.writeAttempt "s.cpp".data ∉
      (Ext.writePhase (fun pth => decide (pth = "h.hpp".data)) (fun _ => none)
        "h.hpp".data "H".data "s.cpp".data "S".data "ok".data).events := by
  decide

/-- C10: in the relative-path revision, for header and source folders given
as relative paths with no `..` segment, the include directive is the same
for every workspace root: the common root prefix cancels out of the
relative-path computation. -/
theorem c10_root_independent_directive :
    ∀ (ws1 ws2 hf sf : List Str) (cn : Str), "..".data ∉ hf → "..".data ∉ sf →
    Rev0.includeDirective ws1 hf sf cn = Rev0.includeDirective ws2 hf sf cn := by
  intro ws1 ws2 hf sf cn hh hs
  exact rev0_directive_root_free ws1 ws2 hf sf cn hh hs

theorem c10_root_independent_directive_witness :
    Rev0.includeDirective ["home".data, "alice".data] ["include".data, "math".data]
      ["src".data] "Vec".data =
    Rev0.includeDirective ["tmp".data] ["include".data, "math".data]
      ["src".data] "Vec".data :=
  c10_root_independent_directive ["home".data, "alice".data] ["tmp".data]
    ["include".data, "math".data] ["src".data] "Vec".data (by decide) (by decide)

/-- C5: when COPYRIGHT.txt exists in the directory, the provider returns its
content unmodified with no events and an unchanged filesystem, and a second
call returns the identical text, again with zero writes. -/
theorem c5_copyright_idempotent :
    ∀ (fs : Str → Option Str) (dir content : Str) (a1 p1 a2 p2 : Option Str),
    fs (dir ++ "/COPYRIGHT.txt".data) = some content →
    (Ext.getOrCreateCopyrightNotice fs dir a1 p1).result = .ok content ∧
    (Ext.getOrCreateCopyrightNotice fs dir a1 p1).events = [] ∧
    (Ext.getOrCreateCopyrightNotice fs dir a1 p1).fs' = fs ∧
    (Ext.getOrCreateCopyrightNotice
        (Ext.getOrCreateCopyrightNotice fs dir a1 p1).fs' dir a2 p2).result =
      .ok content ∧
    (Ext.getOrCreateCopyrightNotice
        (Ext.getOrCreateCopyrightNotice fs dir a1 p1).fs' dir a2 p2).events = [] := by
  intro fs dir content a1 p1 a2 p2 h
  have e1 : Ext.getOrCreateCopyrightNotice fs dir a1 p1 = ⟨.ok content, [], fs⟩ := by
    unfold Ext.getOrCreateCopyrightNotice
    simp only [h]
  have e2 : Ext.getOrCreateCopyrightNotice fs dir a2 p2 = ⟨.ok content, [], fs⟩ := by
    unfold Ext.getOrCreateCopyrightNotice
    simp only [h]
  rw [e1]
  exact ⟨rfl, rfl, rfl, by rw [e2], by rw [e2]⟩

theorem c5_copyright_idempotent_witness :
    (Ext.getOrCreateCopyrightNotice (fun _ => some "N".data) "d".data none none).result =
      .ok "N".data ∧
    (Ext.getOrCreateCopyrightNotice (fun _ => some "N".data) "d".data none none).events = [] ∧
    (Ext.getOrCreateCopyrightNotice (fun _ => some "N".data) "d".data none none).fs' =
      (fun _ => some "N".data) ∧
    (Ext.getOrCreateCopyrightNotice
        (Ext.getOrCreateCopyrightNotice (fun _ => some "N".data) "d".data none none).fs'
        "d".data none none).result = .ok "N".data ∧
    (Ext.getOrCreateCopyrightNotice
        (Ext.getOrCreateCopyrightNotice (fun _ => some "N".data) "d".data none none).fs'
        "d".data none none).events = [] :=
  c5_copyright_idempotent (fun _ => some "N".data) "d".data "N".data none none none none rfl

/-- C6: when COPYRIGHT.txt is absent and the author prompt or the project
name prompt yields no usable value, the provider fails with an error, the
only event is the error message, and the filesystem is unchanged. -/
theorem c6_copyright_missing_input :
    ∀ (fs : Str → Option Str) (dir : Str) (a pn : Option Str),
    fs (dir ++ "/COPYRIGHT.txt".data) = none →
    jsVal a = none ∨ jsVal pn = none →
    (∃ msg, (Ext.getOrCreateCopyrightNotice fs dir a pn).result = .error msg ∧
            (Ext.getOrCreateCopyrightNotice fs dir a pn).events = [.errorMsg msg]) ∧
    (Ext.getOrCreateCopyrightNotice fs dir a pn).fs' = fs := by
  intro fs dir a pn h hmiss
  unfold Ext.getOrCreateCopyrightNotice
  simp only [h]
  rcases hva : jsVal a with _ | av
  · simp only [hva]
    exact ⟨⟨_, rfl, rfl⟩, trivial⟩
  · rcases hvp : jsVal pn with _ | pv
    · simp only [hva, hvp]
      exact ⟨⟨_, rfl, rfl⟩, trivial⟩
    · rcases hmiss with hm | hm
      · rw [hva] at hm; cases hm
      · rw [hvp] at hm; cases hm

theorem c6_copyright_missing_input_witness :
    (∃ msg, (Ext.getOrCreateCopyrightNotice (fun _ => none) "d".data none (some "P".data)).result =
              .error msg ∧
            (Ext.getOrCreateCopyrightNotice (fun _ => none) "d".data none (some "P".data)).events =
              [.errorMsg msg]) ∧
    (Ext.getOrCreateCopyrightNotice (fun _ => none) "d".data none (some "P".data)).fs' =
      (fun _ => none) :=
  c6_copyright_missing_input (fun _ => none) "d".data none (some "P".data) rfl (Or.inl rfl)

/-- C4: the namespace input is split on `::`, each segment trimmed, empty
segments discarded; `a::b::c` opens exactly three blocks in order and closes
three braces, while the empty input and `::` produce no blocks, both for the
literal inputs and for arbitrary colon-free trimmed non-empty segments. -/
theorem c4_namespace_parsing :
    (Ext.nsParts (some "a::b::c".data) = ["a".data, "b".data, "c".data] ∧
     Ext.openNamespaces (some "a::b::c".data) =
       "namespace a \x7b\nnamespace b \x7b\nnamespace c \x7b".data ∧
     Ext.closeNamespaces (some "a::b::c".data) = "\x7d\n\x7d\n\x7d".data ∧
     Ext.openNamespaces (some "".data) = [] ∧
     Ext.closeNamespaces (some "".data) = [] ∧
     Ext.openNamespaces (some "::".data) = [] ∧
     Ext.closeNamespaces (some "::".data) = []) ∧
    (∀ a b c : Str, ':' ∉ a → ':' ∉ b → ':' ∉ c →
      jsTrim a = a → jsTrim b = b → jsTrim c = c →
      a ≠ [] → b ≠ [] → c ≠ [] →
      Ext.nsParts (some (a ++ "::".data ++ b ++ "::".data ++ c)) = [a, b, c] ∧
      Ext.openNamespaces (some (a ++ "::".data ++ b ++ "::".data ++ c)) =
        "namespace ".data ++ a ++ " \x7b\nnamespace ".data ++ b ++
        " \x7b\nnamespace ".data ++ c ++ " \x7b".data ∧
      Ext.closeNamespaces (some (a ++ "::".data ++ b ++ "::".data ++ c)) =
        "\x7d\n\x7d\n\x7d".data) := by
  constructor
  · exact ⟨by decide, by decide, by decide, by decide, by decide, by decide, by decide⟩
  · intro a b c ha hb hc ta tb tc na nb nc
    have he : (a ++ "::".data ++ b ++ "::".data ++ c) =
        a ++ (':' :: ':' :: (b ++ (':' :: ':' :: c))) := by
      simp only [List.append_assoc]
      rfl
    have hcol : ':' ∈ (a ++ "::".data ++ b ++ "::".data ++ c) := by
      rw [he]
      exact List.mem_append.mpr (Or.inr (List.mem_cons_self _ _))
    have hguard := jsTrim_length_ne_zero_of_colon hcol
    have hsplit : splitColons (a ++ "::".data ++ b ++ "::".data ++ c) = [a, b, c] := by
      rw [he, splitColons_sep _ a ha, splitColons_sep _ b hb, splitColons_single c hc]
    have hkeep : ∀ x : Str, x ≠ [] → (x.length != 0) = true := by
      intro x hx
      simpa [List.length_eq_zero] using hx
    have hp : Ext.nsParts (some (a ++ "::".data ++ b ++ "::".data ++ c)) = [a, b, c] := by
      simp only [Ext.nsParts]
      rw [if_pos hguard, hsplit]
      simp [ta, tb, tc, hkeep a na, hkeep b nb, hkeep c nc]
    refine ⟨hp, ?_, ?_⟩
    · unfold Ext.openNamespaces
      rw [hp]
      simp only [List.intercalate, List.intersperse, List.map, List.length_cons,
        List.append_assoc]
      norm_num
    · unfold Ext.closeNamespaces
      rw [hp]
      rfl

theorem c4_namespace_parsing_witness :
    Ext.nsParts (some ("x".data ++ "::".data ++ "y".data ++ "::".data ++ "z".data)) =
      ["x".data, "y".data, "z".data] ∧
    Ext.openNamespaces (some ("x".data ++ "::".data ++ "y".data ++ "::".data ++ "z".data)) =
      "namespace ".data ++ "x".data ++ " \x7b\nnamespace ".data ++ "y".data ++
      " \x7b\nnamespace ".data ++ "z".data ++ " \x7b".data ∧
    Ext.closeNamespaces (some ("x".data ++ "::".data ++ "y".data ++ "::".data ++ "z".data)) =
      "\x7d\n\x7d\n\x7d".data :=
  c4_namespace_parsing.2 "x".data "y".data "z".data (by decide) (by decide) (by decide)
    (by decide) (by decide) (by decide) (by decide) (by decide) (by decide)

lemma openNamespaces_of_empty {ns : Option Str} (h : jsVal ns = none) :
    Ext.openNamespaces ns = [] ∧ Ext.closeNamespaces ns = [] := by
  cases ns with
  | none => exact ⟨rfl, rfl⟩
  | some s =>
    have hs : s = [] := by
      by_cases h0 : (s.length != 0) = true
      · simp [jsVal, h0] at h
      · simpa [List.length_eq_zero] using h0
    subst hs
    exact ⟨rfl, rfl⟩

/-- C7 (amended): for a non-empty class name and an empty or dismissed
namespace input, provided neither the copyright text nor the class name
contains the substrings `namespace` or `class`, the rendered header contains
no occurrence of `namespace`, exactly one occurrence of `class`, and the
constructor/destructor declaration block with both names equal to the class
name. -/
theorem c7_header_rendering_amended :
    ∀ (cp cn : Str) (ns : Option Str), cn ≠ [] → jsVal ns = none →
    countOcc "namespace".data cp = 0 → countOcc "namespace".data cn = 0 →
    countOcc "class".data cp = 0 → countOcc "class".data cn = 0 →
    countOcc "namespace".data
      (Ext.headerContent cp (Ext.openNamespaces ns) (Ext.closeNamespaces ns) cn) = 0 ∧
    countOcc "class".data
      (Ext.headerContent cp (Ext.openNamespaces ns) (Ext.closeNamespaces ns) cn) = 1 ∧
    ("public:\n    ".data ++ cn ++ "();\n    ~".data ++ cn ++ "();\n\n".data) <:+:
      Ext.headerContent cp (Ext.openNamespaces ns) (Ext.closeNamespaces ns) cn := by
  intro cp cn ns hcn hns h1 h2 h3 h4
  obtain ⟨ho, hc⟩ := openNamespaces_of_empty hns
  rw [ho, hc]
  refine ⟨?_, ?_, ?_⟩
  · rw [countOcc_headerContent "namespace".data cp cn (by decide) (by decide) (by decide)
      (by decide) (by decide) (by decide) (by decide) (by decide) (by decide)
      (by decide) (by decide)]
    rw [h1, h2]
    decide
  · rw [countOcc_headerContent "class".data cp cn (by decide) (by decide) (by decide)
      (by decide) (by decide) (by decide) (by decide) (by decide) (by decide)
      (by decide) (by decide)]
    rw [h3, h4]
    decide
  · refine ⟨cp ++ hdrK1 ++ cn ++ " \x7b\n".data,
      "private:\n    // Members...\n\x7d;\n\n".data, ?_⟩
    rw [headerContent_empty_ns]
    simp only [hdrK1, hdrK2, hdrK3, hdrK4, List.append_assoc]

theorem c7_header_rendering_amended_witness :
    countOcc "namespace".data
      (Ext.headerContent "/* c */".data (Ext.openNamespaces none)
        (Ext.closeNamespaces none) "Foo".data) = 0 ∧
    countOcc "class".data
      (Ext.headerContent "/* c */".data (Ext.openNamespaces none)
        (Ext.closeNamespaces none) "Foo".data) = 1 ∧
    ("public:\n    ".data ++ "Foo".data ++ "();\n    ~".data ++ "Foo".data ++
      "();\n\n".data) <:+:
      Ext.headerContent "/* c */".data (Ext.openNamespaces none)
        (Ext.closeNamespaces none) "Foo".data :=
  c7_header_rendering_amended "/* c */".data "Foo".data none (by decide) rfl
    (by decide) (by decide) (by decide) (by decide)

set_option maxRecDepth 8192 in
/-- C7 counterexample: the claim quantifies over every non-empty class name,
but for the non-empty class name `namespace` (with an empty namespace input)
the rendered header does contain the keyword `namespace`. -/
theorem c7_counterexample :
    ("namespace".data ≠ ([] : Str)) ∧
    jsVal (some []) = none ∧
    countOcc "namespace".data
      (Ext.headerContent "/* demo */".data (Ext.openNamespaces (some []))
        (Ext.closeNamespaces (some [])) "namespace".data) ≠ 0 := by
  decide

lemma jsVal_some {s : Str} (h : s ≠ []) : jsVal (some s) = some s := by
  have hb : (s.length != 0) = true := by simpa [List.length_eq_zero] using h
  simp [jsVal, hb]

lemma copyright_hit (fs : Str → Option Str) (base content : Str) (a pn : Option Str)
    (h : fs (base ++ "/COPYRIGHT.txt".data) = some content) :
    Ext.getOrCreateCopyrightNotice fs base a pn = ⟨.ok content, [], fs⟩ := by
  unfold Ext.getOrCreateCopyrightNotice
  simp only [h]

/-- C9: in unified placement, a dismissed or empty target-folder prompt is
not a cancellation: both generated files are still written, directly into
the base folder. -/
theorem c9_unified_empty_folder :
    ∀ (fs : Str → Option Str) (p : Ext.Prompts) (base cn notice : Str),
    p.baseFolder = some base →
    fs (base ++ "/COPYRIGHT.txt".data) = some notice →
    p.className = some cn → cn ≠ [] →
    p.placement = some .sameFolder →
    jsVal p.folderInput = none →
    Event.fileWritten (base ++ "/".data ++ cn ++ ".hpp".data)
        (Ext.headerContent notice (Ext.openNamespaces p.nsInput)
          (Ext.closeNamespaces p.nsInput) cn)
      ∈ (Ext.createClassFiles fs (fun _ => false) p).events ∧
    Event.fileWritten (base ++ "/".data ++ cn ++ ".cpp".data)
        (Ext.sourceContent notice (Ext.openNamespaces p.nsInput)
          (Ext.closeNamespaces p.nsInput) cn
          ("#include \"".data ++ cn ++ ".hpp\"".data))
      ∈ (Ext.createClassFiles fs (fun _ => false) p).events := by
  intro fs p base cn notice hb hfs hcn hne hpl hfi
  have hcr := copyright_hit fs base notice p.author p.projectName hfs
  have hcnv : jsVal p.className = some cn := by
    rw [hcn]
    exact jsVal_some hne
  simp only [Ext.createClassFiles, hb, hcr, hcnv, hpl, hfi]
  simp [Ext.writePhase, uriJoin, List.append_assoc]

theorem c9_unified_empty_folder_witness :
    Event.fileWritten ("b".data ++ "/".data ++ "X".data ++ ".hpp".data)
        (Ext.headerContent "N".data (Ext.openNamespaces none)
          (Ext.closeNamespaces none) "X".data)
      ∈ (Ext.createClassFiles (fun _ => some "N".data) (fun _ => false)
          ⟨some "b".data, none, none, some "X".data, none, some .sameFolder,
           none, none, none⟩).events ∧
    Event.fileWritten ("b".data ++ "/".data ++ "X".data ++ ".cpp".data)
        (Ext.sourceContent "N".data (Ext.openNamespaces none)
          (Ext.closeNamespaces none) "X".data
          ("#include \"".data ++ "X".data ++ ".hpp\"".data))
      ∈ (Ext.createClassFiles (fun _ => some "N".data) (fun _ => false)
          ⟨some "b".data, none, none, some "X".data, none, some .sameFolder,
           none, none, none⟩).events :=
  c9_unified_empty_folder (fun _ => some "N".data)
    ⟨some "b".data, none, none, some "X".data, none, some .sameFolder, none, none, none⟩
    "b".data "X".data "N".data rfl rfl rfl (by decide) rfl rfl

/-- C8: in unified placement the include directive embedded in the generated
source file is exactly `#include "<className>.hpp"`: the source text is
built with that directive right after the copyright block, and the written
source content is the same for every target-folder answer. -/
theorem c8_unified_include_directive :
    ∀ (fs : Str → Option Str) (p : Ext.Prompts) (base cn notice : Str)
      (fi1 fi2 : Option Str),
    p.baseFolder = some base →
    fs (base ++ "/COPYRIGHT.txt".data) = some notice →
    p.className = some cn → cn ≠ [] →
    p.placement = some .sameFolder →
    (∃ pth, Event.fileWritten pth
        (Ext.sourceContent notice (Ext.openNamespaces p.nsInput)
          (Ext.closeNamespaces p.nsInput) cn
          ("#include \"".data ++ cn ++ ".hpp\"".data))
      ∈ (Ext.createClassFiles fs (fun _ => false)
          { p with folderInput := fi1 }).events) ∧
    (∃ pth, Event.fileWritten pth
        (Ext.sourceContent notice (Ext.openNamespaces p.nsInput)
          (Ext.closeNamespaces p.nsInput) cn
          ("#include \"".data ++ cn ++ ".hpp\"".data))
      ∈ (Ext.createClassFiles fs (fun _ => false)
          { p with folderInput := fi2 }).events) ∧
    (∃ rest, Ext.sourceContent notice (Ext.openNamespaces p.nsInput)
        (Ext.closeNamespaces p.nsInput) cn
        ("#include \"".data ++ cn ++ ".hpp\"".data) =
      notice ++ "\n\n".data ++ ("#include \"".data ++ cn ++ ".hpp\"".data) ++
      "\n\n".data ++ rest) := by
  intro fs p base cn notice fi1 fi2 hb hfs hcn hne hpl
  have hcr := copyright_hit fs base notice p.author p.projectName hfs
  have hcnv : jsVal p.className = some cn := by
    rw [hcn]
    exact jsVal_some hne
  have main : ∀ fi : Option Str, ∃ pth, Event.fileWritten pth
      (Ext.sourceContent notice (Ext.openNamespaces p.nsInput)
        (Ext.closeNamespaces p.nsInput) cn
        ("#include \"".data ++ cn ++ ".hpp\"".data))
      ∈ (Ext.createClassFiles fs (fun _ => false)
          { p with folderInput := fi }).events := by
    intro fi
    simp only [Ext.createClassFiles, hb, hcr, hcnv, hpl, Ext.writePhase]
    norm_num
    exact ⟨_, Or.inr (Or.inr (Or.inr (Or.inl rfl)))⟩
  refine ⟨main fi1, main fi2, ?_⟩
  exact ⟨sourceTail (Ext.openNamespaces p.nsInput) (Ext.closeNamespaces p.nsInput) cn,
    sourceContent_shape notice (Ext.openNamespaces p.nsInput)
      (Ext.closeNamespaces p.nsInput) cn ("#include \"".data ++ cn ++ ".hpp\"".data)⟩

lemma copyright_events_ok (fs : Str → Option Str) (base : Str) (a pn : Option Str) :
    onlyCopyrightWrites base (Ext.getOrCreateCopyrightNotice fs base a pn).events = true := by
  unfold Ext.getOrCreateCopyrightNotice
  cases hfs : fs (base ++ "/COPYRIGHT.txt".data) with
  | some d => simp [hfs, onlyCopyrightWrites]
  | none =>
    cases hva : jsVal a with
    | none => simp [hfs, hva, onlyCopyrightWrites]
    | some av =>
      cases hvp : jsVal pn with
      | none => simp [hfs, hva, hvp, onlyCopyrightWrites]
      | some pv => simp [hfs, hva, hvp, onlyCopyrightWrites]

lemma onlyCopyrightWrites_append_error (base : Str) (evs : List Event) (m : Str)
    (h : onlyCopyrightWrites base evs = true) :
    onlyCopyrightWrites base (evs ++ [Event.errorMsg m]) = true := by
  simp only [onlyCopyrightWrites, List.all_append] at h ⊢
  simp [h]

/-- C3 (amended): dismissing the folder-selection, class-name, or placement
prompt, or (in the split branch) the header- or source-subfolder prompt,
aborts the command with no generated-file write: at most the COPYRIGHT.txt
write is issued.  (Dismissing the namespace prompt or the unified-branch
folder prompt does not abort; see the counterexample.) -/
theorem c3_cancellation_amended :
    ∀ (fs : Str → Option Str) (wfail : Str → Bool) (p : Ext.Prompts),
    (p.baseFolder = none → (Ext.createClassFiles fs wfail p).events = []) ∧
    (∀ base : Str, p.baseFolder = some base →
      ((jsVal p.className = none →
         onlyCopyrightWrites base (Ext.createClassFiles fs wfail p).events = true) ∧
       (p.placement = none →
         onlyCopyrightWrites base (Ext.createClassFiles fs wfail p).events = true) ∧
       (p.placement = some .separateFolders → jsVal p.headerFolderInput = none →
         onlyCopyrightWrites base (Ext.createClassFiles fs wfail p).events = true) ∧
       (p.placement = some .separateFolders → jsVal p.sourceFolderInput = none →
         onlyCopyrightWrites base (Ext.createClassFiles fs wfail p).events = true))) := by
  intro fs wfail p
  refine ⟨?_, ?_⟩
  · intro hb
    simp only [Ext.createClassFiles, hb]
  · intro base hb
    have hco := copyright_events_ok fs base p.author p.projectName
    have hall : ∀ m : Str, onlyCopyrightWrites base
        ((Ext.getOrCreateCopyrightNotice fs base p.author p.projectName).events ++
          [Event.errorMsg m]) = true :=
      fun m => onlyCopyrightWrites_append_error base _ m hco
    simp only [Ext.createClassFiles, hb]
    rcases hres : (Ext.getOrCreateCopyrightNotice fs base p.author p.projectName).result
      with msg | notice <;> simp only [hres]
    · exact ⟨fun _ => hall msg, fun _ => hall msg, fun _ _ => hall msg,
        fun _ _ => hall msg⟩
    · refine ⟨?_, ?_, ?_, ?_⟩
      · intro h
        simp only [h]
        exact hall _
      · intro hpl
        rcases hcn : jsVal p.className with _ | cn <;> simp only [hcn]
        · exact hall _
        · simp only [hpl]
          exact hco
      · intro hpl hhf
        rcases hcn : jsVal p.className with _ | cn <;> simp only [hcn]
        · exact hall _
        · simp only [hpl, hhf]
          exact hco
      · intro hpl hsf
        rcases hcn : jsVal p.className with _ | cn <;> simp only [hcn]
        · exact hall _
        · simp only [hpl]
          rcases hhf : jsVal p.headerFolderInput with _ | hfi <;> simp only [hhf]
          · exact hco
          · simp only [hsf]
            exact hco

theorem c3_cancellation_amended_witness :
    onlyCopyrightWrites "b".data
      (Ext.createClassFiles (fun _ => some "N".data) (fun _ => false)
        ⟨some "b".data, none, none, none, none, some .sameFolder,
         none, none, none⟩).events = true :=
  (((c3_cancellation_amended (fun _ => some "N".data) (fun _ => false)
    ⟨some "b".data, none, none, none, none, some .sameFolder, none, none, none⟩).2
    "b".data rfl).1) rfl

set_option maxRecDepth 8192 in
/-- C3 counterexample: the namespace prompt is one of the command's prompt
stages, yet an invocation in which it returned no value still writes the two
generated files, refuting the claim for that stage. -/
theorem c3_counterexample :
    (Ext.Prompts.nsInput
      ⟨some "b".data, none, none, some "X".data, none, some .sameFolder,
       none, none, none⟩ = none) ∧
    Event.writeAttempt "b/X.hpp".data ∈
      (Ext.createClassFiles (fun _ => some "N".data) (fun _ => false)
        ⟨some "b".data, none, none, some "X".data, none, some .sameFolder,
         none, none, none⟩).events := by
  decide

theorem c8_unified_include_directive_witness :
    (∃ pth, Event.fileWritten pth
        (Ext.sourceContent "N".data (Ext.openNamespaces none)
          (Ext.closeNamespaces none) "X".data
          ("#include \"".data ++ "X".data ++ ".hpp\"".data))
      ∈ (Ext.createClassFiles (fun _ => some "N".data) (fun _ => false)
          { (⟨some "b".data, none, none, some "X".data, none, some .sameFolder,
             none, none, none⟩ : Ext.Prompts) with folderInput := none }).events) ∧
    (∃ pth, Event.fileWritten pth
        (Ext.sourceContent "N".data (Ext.openNamespaces none)
          (Ext.closeNamespaces none) "X".data
          ("#include \"".data ++ "X".data ++ ".hpp\"".data))
      ∈ (Ext.createClassFiles (fun _ => some "N".data) (fun _ => false)
          { (⟨some "b".data, none, none, some "X".data, none, some .sameFolder,
             none, none, none⟩ : Ext.Prompts) with
             folderInput := some "sub".data }).events) ∧
    (∃ rest, Ext.sourceContent "N".data (Ext.openNamespaces none)
        (Ext.closeNamespaces none) "X".data
        ("#include \"".data ++ "X".data ++ ".hpp\"".data) =
      "N".data ++ "\n\n".data ++ ("#include \"".data ++ "X".data ++ ".hpp\"".data) ++
      "\n\n".data ++ rest) :=
  c8_unified_include_directive (fun _ => some "N".data)
    ⟨some "b".data, none, none, some "X".data, none, some .sameFolder, none, none, none⟩
    "b".data "X".data "N".data none (some "sub".data) rfl rfl rfl (by decide) rfl
